import Mathlib

/-!
Verification of the netgex server-bootstrap toolkit's lifecycle coordinator
(`Server.Run` in `server/server.go` and the legacy `server.go`), its options
surface (`server/option.go`, `option.go`), and the metrics process
(`internal/metrics`).

The Go code is shallowly embedded: each process is represented by the
results its three lifecycle methods would return, the coordinator's `Run`
is a Lean function over the process list and a termination trigger (which
of the `select` arms fires first), and contexts are an inductive type
tracking how each context was derived.
-/

namespace Netgex

/-- Go `error` values as they flow through the coordinator.
`base n` is an arbitrary underlying error (identified by a code);
`preRunWrap e` is `fmt.Errorf("pre-run error: %w", e)`;
`processWrap i e` is `fmt.Errorf("process %d error: %w", i, e)`. -/
inductive GoErr where
  | base (code : Nat)
  | preRunWrap (e : GoErr)
  | processWrap (i : Nat) (e : GoErr)
deriving DecidableEq, Repr

/-- The message text produced by the `fmt.Errorf` wrappers in `Server.Run`. -/
def GoErr.render : GoErr → String
  | .base code => "error " ++ toString code
  | .preRunWrap e => "pre-run error: " ++ e.render
  | .processWrap i e => "process " ++ toString i ++ " error: " ++ e.render

/-- A process as the coordinator observes it: the result each of the three
lifecycle methods (`PreRun`, `Run`, `Shutdown`) would return when called.
`none` models a nil Go error. -/
structure ProcBehavior where
  preRunResult : Option GoErr
  runResult : Option GoErr
  shutdownResult : Option GoErr
deriving DecidableEq, Repr

/-- Go `context.Context` values, tracked by provenance: the input context
of `Run`, `context.Background()`, or `context.WithTimeout(parent, d)`. -/
inductive GoCtx where
  | input
  | background
  | withTimeout (parent : GoCtx) (timeout : Nat)
deriving DecidableEq, Repr

/-- Whether a context is live (not cancelled and deadline not yet reached)
at the moment the shutdown phase starts, given whether the input context
has been cancelled or has expired. `context.Background()` is never
cancelled; a `WithTimeout` context with a positive timeout is live at
creation time iff its parent is. -/
def GoCtx.alive (inputCancelled : Bool) : GoCtx → Bool
  | .input => !inputCancelled
  | .background => true
  | .withTimeout parent timeout => parent.alive inputCancelled && decide (0 < timeout)

/-- Which arm of the `select` in `Server.Run` fires first: the input
context's `Done` channel, or the error channel delivering the wrapped
run error of process `i`. -/
inductive Trigger where
  | ctxDone
  | procError (i : Nat)
deriving DecidableEq, Repr

/-- A trigger is realizable for a process list: `procError i` can only
fire if process `i` exists and its `Run` returns a non-nil error. -/
def Trigger.valid (ps : List ProcBehavior) : Trigger → Bool
  | .ctxDone => true
  | .procError i => ((ps[i]?).bind (·.runResult)).isSome

/-- Everything observable about one `Server.Run` execution: which indices
had `PreRun` called (in order), which run goroutines were launched, the
values ever sent on the error channel, the channel's capacity, the error
recorded at the `select`, the shutdown calls (index paired with the
context passed), and the returned error. -/
structure RunOutcome where
  preRunCalls : List Nat
  runLaunched : List Nat
  sends : List GoErr
  errChCap : Nat
  selectError : Option GoErr
  shutdownCalls : List (Nat × GoCtx)
  result : Option GoErr
deriving DecidableEq, Repr

/-- The sequential PreRun loop of `Server.Run`: iterate the list in order
calling `PreRun`; stop at the first non-nil error. Returns the indices
called (offset by `start`) and the first error, if any. -/
def preRunAux (start : Nat) : List ProcBehavior → List Nat × Option GoErr
  | [] => ([], none)
  | p :: rest =>
    match p.preRunResult with
    | some e => ([start], some e)
    | none =>
      let r := preRunAux (start + 1) rest
      (start :: r.1, r.2)

/-- Just the first PreRun error of the list, if any. -/
def preRunPhase : List ProcBehavior → Option GoErr
  | [] => none
  | p :: rest =>
    match p.preRunResult with
    | some e => some e
    | none => preRunPhase rest

/-- The reverse shutdown loop of `Server.Run`:
`for i := len(processes)-1; i >= 0; i--` calling `Shutdown(shutdownCtx)`;
a non-nil shutdown error is recorded only when `err` is still nil.
Returns the calls made (index, context) and the final `err`. -/
def shutdownPhase (ps : List ProcBehavior) (sctx : GoCtx) :
    Nat → Option GoErr → List (Nat × GoCtx) × Option GoErr
  | 0, err => ([], err)
  | n + 1, err =>
    let sdErr := (ps[n]?).bind (·.shutdownResult)
    let err' :=
      match sdErr, err with
      | some se, none => some se
      | _, _ => err
    let r := shutdownPhase ps sctx n err'
    ((n, sctx) :: r.1, r.2)

/-- The values ever sent on `errCh`: one goroutine per process, sending
`fmt.Errorf("process %d error: %w", index, err)` only when that process's
`Run` returns a non-nil error, and nothing otherwise. -/
def runSends (ps : List ProcBehavior) : List GoErr :=
  ps.enum.filterMap fun ip => ip.2.runResult.map (GoErr.processWrap ip.1)

/-- The error recorded by the `select`: nil when `ctx.Done()` fires first,
the wrapped run error of process `i` when the error channel fires first. -/
def selectErrorOf (ps : List ProcBehavior) : Trigger → Option GoErr
  | .ctxDone => none
  | .procError i => ((ps[i]?).bind (·.runResult)).map (GoErr.processWrap i)

/-- `context.WithTimeout(context.Background(), s.cfg.CloseTimeout)`. -/
def shutdownCtxOf (closeTimeout : Nat) : GoCtx :=
  GoCtx.withTimeout GoCtx.background closeTimeout

/-- `Server.Run` over an already-assembled process list, from the PreRun
loop onward (`server/server.go` lines 144-198; identical logic in the
legacy `server.go` lines 128-182). `closeTimeout` is `s.cfg.CloseTimeout`;
`tr` selects which `select` arm fires first. -/
def serverRun (closeTimeout : Nat) (ps : List ProcBehavior) (tr : Trigger) :
    RunOutcome :=
  let pr := preRunAux 0 ps
  match pr.2 with
  | some e =>
    { preRunCalls := pr.1
      runLaunched := []
      sends := []
      errChCap := 0
      selectError := none
      shutdownCalls := []
      result := some (GoErr.preRunWrap e) }
  | none =>
    let sd := shutdownPhase ps (shutdownCtxOf closeTimeout) ps.length (selectErrorOf ps tr)
    { preRunCalls := pr.1
      runLaunched := List.range ps.length
      sends := runSends ps
      errChCap := ps.length
      selectError := selectErrorOf ps tr
      shutdownCalls := sd.1
      result := sd.2 }

/-- Spec-side description: "the first shutdown error encountered while
iterating the process list in reverse". -/
def firstShutdownErrorRev (ps : List ProcBehavior) : Option GoErr :=
  (ps.reverse.filterMap (·.shutdownResult)).head?

/-- Spec-side description of the overall error: the first run-phase error
received from the error channel if one was received before the context was
done, otherwise the first shutdown error in reverse iteration order,
otherwise nil. -/
def specExpectedResult (ps : List ProcBehavior) : Trigger → Option GoErr
  | .ctxDone => firstShutdownErrorRev ps
  | .procError i => ((ps[i]?).bind (·.runResult)).map (GoErr.processWrap i)

theorem preRunAux_snd (ps : List ProcBehavior) :
    ∀ start, (preRunAux start ps).2 = preRunPhase ps := by
  induction ps with
  | nil => intro start; rfl
  | cons p rest ih =>
    intro start
    cases hp : p.preRunResult with
    | some e => simp [preRunAux, preRunPhase, hp]
    | none => simp [preRunAux, preRunPhase, hp, ih]

theorem shutdownPhase_snd_of_some (ps : List ProcBehavior) (sctx : GoCtx) (e : GoErr) :
    ∀ n, (shutdownPhase ps sctx n (some e)).2 = some e := by
  intro n
  induction n with
  | zero => rfl
  | succ n ih =>
    simp only [shutdownPhase]
    cases h : (ps[n]?).bind (·.shutdownResult) <;> simpa [h] using ih

theorem shutdownPhase_snd_none (ps : List ProcBehavior) (sctx : GoCtx) :
    ∀ n, (shutdownPhase ps sctx n none).2 =
      ((ps.take n).reverse.filterMap (·.shutdownResult)).head? := by
  intro n
  induction n with
  | zero => rfl
  | succ n ih =>
    have htake : ps.take (n + 1) = ps.take n ++ (ps[n]?).toList := List.take_succ
    cases hg : ps[n]? with
    | none =>
      have hstep : (shutdownPhase ps sctx (n + 1) none).2 =
          (shutdownPhase ps sctx n none).2 := by
        simp only [shutdownPhase, hg, Option.none_bind]
      rw [hstep, ih, htake, hg]
      simp
    | some p =>
      cases hs : p.shutdownResult with
      | none =>
        have hstep : (shutdownPhase ps sctx (n + 1) none).2 =
            (shutdownPhase ps sctx n none).2 := by
          simp only [shutdownPhase, hg, Option.some_bind, hs]
        rw [hstep, ih, htake, hg]
        simp [hs]
      | some se =>
        have hstep : (shutdownPhase ps sctx (n + 1) none).2 = some se := by
          simp only [shutdownPhase, hg, Option.some_bind, hs]
          exact shutdownPhase_snd_of_some ps sctx se n
        rw [hstep, htake, hg]
        simp [hs]

theorem shutdownPhase_fst (ps : List ProcBehavior) (sctx : GoCtx) :
    ∀ n err, (shutdownPhase ps sctx n err).1 =
      (List.range n).reverse.map (fun i => (i, sctx)) := by
  intro n
  induction n with
  | zero => intro err; rfl
  | succ n ih =>
    intro err
    simp only [shutdownPhase]
    rw [ih, List.range_succ, List.reverse_append]
    simp

theorem serverRun_of_preRun_ok (ct : Nat) (ps : List ProcBehavior) (tr : Trigger)
    (hpre : preRunPhase ps = none) :
    serverRun ct ps tr =
      { preRunCalls := (preRunAux 0 ps).1
        runLaunched := List.range ps.length
        sends := runSends ps
        errChCap := ps.length
        selectError := selectErrorOf ps tr
        shutdownCalls :=
          (shutdownPhase ps (shutdownCtxOf ct) ps.length (selectErrorOf ps tr)).1
        result :=
          (shutdownPhase ps (shutdownCtxOf ct) ps.length (selectErrorOf ps tr)).2 } := by
  have hpr : (preRunAux 0 ps).2 = none := by rw [preRunAux_snd]; exact hpre
  simp only [serverRun, hpr]

/-- C1: once every PreRun succeeded, the error returned by `Server.Run` is
exactly the first run-phase error received from the error channel if one
arrived before the context was done, otherwise the first shutdown error in
reverse iteration order, otherwise nil; a recorded run-phase error is never
overwritten by a shutdown error or a second run-phase error. -/
theorem run_result_first_error_wins (ct : Nat) (ps : List ProcBehavior) (tr : Trigger)
    (hv : tr.valid ps = true) (hpre : preRunPhase ps = none) :
    (serverRun ct ps tr).result = specExpectedResult ps tr := by
  rw [serverRun_of_preRun_ok ct ps tr hpre]
  cases tr with
  | ctxDone =>
    show (shutdownPhase ps (shutdownCtxOf ct) ps.length none).2 = firstShutdownErrorRev ps
    rw [shutdownPhase_snd_none, List.take_length]
    rfl
  | procError i =>
    cases h : (ps[i]?).bind (·.runResult) with
    | none => simp [Trigger.valid, h] at hv
    | some e =>
      show (shutdownPhase ps (shutdownCtxOf ct)
          ps.length (selectErrorOf ps (.procError i))).2 =
        specExpectedResult ps (.procError i)
      simp only [selectErrorOf, specExpectedResult, h, Option.map_some']
      exact shutdownPhase_snd_of_some ps (shutdownCtxOf ct) (GoErr.processWrap i e) ps.length

/-- A process list exercising every phase: process 0's Run fails and both
processes have failing Shutdowns. -/
def psA : List ProcBehavior :=
  [⟨none, some (.base 1), some (.base 2)⟩, ⟨none, none, some (.base 3)⟩]

theorem run_result_first_error_wins_witness :
    (Trigger.procError 0).valid psA = true ∧ preRunPhase psA = none ∧
      (serverRun 10 psA (.procError 0)).result = specExpectedResult psA (.procError 0) :=
  ⟨by decide, by decide,
    run_result_first_error_wins 10 psA (.procError 0) (by decide) (by decide)⟩

/-- C2: whenever `Server.Run` reaches the shutdown phase, `Shutdown` is
invoked exactly once on every process, in exact reverse list order,
regardless of the termination trigger and of shutdown errors. -/
theorem shutdown_exact_reverse_order (ct : Nat) (ps : List ProcBehavior) (tr : Trigger)
    (hv : tr.valid ps = true) (hpre : preRunPhase ps = none) :
    (serverRun ct ps tr).shutdownCalls.map Prod.fst = (List.range ps.length).reverse ∧
      ∀ i, i < ps.length →
        ((serverRun ct ps tr).shutdownCalls.map Prod.fst).count i = 1 := by
  have hcalls : (serverRun ct ps tr).shutdownCalls.map Prod.fst =
      (List.range ps.length).reverse := by
    rw [serverRun_of_preRun_ok ct ps tr hpre]
    show (shutdownPhase ps (shutdownCtxOf ct) ps.length
        (selectErrorOf ps tr)).1.map Prod.fst = (List.range ps.length).reverse
    rw [shutdownPhase_fst]
    simp [Function.comp_def]
  refine ⟨hcalls, fun i hi => ?_⟩
  rw [hcalls, List.count_reverse]
  exact List.count_eq_one_of_mem (List.nodup_range _) (List.mem_range.mpr hi)

theorem shutdown_exact_reverse_order_witness :
    Trigger.ctxDone.valid psA = true ∧ preRunPhase psA = none ∧
      (serverRun 10 psA .ctxDone).shutdownCalls.map Prod.fst =
        (List.range psA.length).reverse :=
  ⟨by decide, by decide,
    (shutdown_exact_reverse_order 10 psA .ctxDone (by decide) (by decide)).1⟩

theorem cons_range_map (n s : Nat) :
    s :: (List.range n).map (· + (s + 1)) = (List.range (n + 1)).map (· + s) := by
  rw [List.range_succ_eq_map, List.map_cons, List.map_map]
  refine congrArg₂ List.cons (by omega) ?_
  refine List.map_congr_left fun a _ => ?_
  simp only [Function.comp_apply]
  omega

theorem preRunAux_first_fail (e : GoErr) :
    ∀ (ps : List ProcBehavior) (start i : Nat),
      ps[i]?.bind (·.preRunResult) = some e →
      (∀ j, j < i → ps[j]?.bind (·.preRunResult) = none) →
      preRunAux start ps = ((List.range (i + 1)).map (· + start), some e) := by
  intro ps
  induction ps with
  | nil =>
    intro start i h1 _
    simp at h1
  | cons p rest ih =>
    intro start i h1 h2
    cases i with
    | zero =>
      simp only [List.getElem?_cons_zero, Option.some_bind] at h1
      simp [preRunAux, h1, List.range_succ]
    | succ j =>
      have hp : p.preRunResult = none := by
        have h0 := h2 0 (Nat.succ_pos j)
        simpa using h0
      have h1' : rest[j]?.bind (·.preRunResult) = some e := by simpa using h1
      have h2' : ∀ k, k < j → rest[k]?.bind (·.preRunResult) = none := by
        intro k hk
        have hk1 := h2 (k + 1) (Nat.succ_lt_succ hk)
        simpa using hk1
      have hrec := ih (start + 1) j h1' h2'
      simp only [preRunAux, hp, hrec]
      exact Prod.ext (cons_range_map (j + 1) start) rfl

/-- C3: if process `i` is the first whose `PreRun` fails, `Run` returns
that error wrapped as `pre-run error: %w`, `PreRun` is called exactly on
indices `0..i` in order, and no `Run` goroutine, error-channel send, or
`Shutdown` call ever happens. -/
theorem prerun_short_circuit (ct : Nat) (ps : List ProcBehavior) (tr : Trigger)
    (i : Nat) (e : GoErr)
    (h1 : ps[i]?.bind (·.preRunResult) = some e)
    (h2 : ∀ j, j < i → ps[j]?.bind (·.preRunResult) = none) :
    (serverRun ct ps tr).result = some (GoErr.preRunWrap e) ∧
    (serverRun ct ps tr).preRunCalls = List.range (i + 1) ∧
    (serverRun ct ps tr).runLaunched = [] ∧
    (serverRun ct ps tr).sends = [] ∧
    (serverRun ct ps tr).shutdownCalls = [] ∧
    ((serverRun ct ps tr).result).map GoErr.render =
      some ("pre-run error: " ++ e.render) := by
  have haux := preRunAux_first_fail e ps 0 i h1 h2
  have haux0 : preRunAux 0 ps = (List.range (i + 1), some e) := by
    rw [haux]
    simp
  simp [serverRun, haux0, GoErr.render]

/-- A list whose second process is the first to fail PreRun. -/
def psB : List ProcBehavior :=
  [⟨none, none, none⟩, ⟨some (.base 7), none, none⟩, ⟨none, none, none⟩]

theorem prerun_short_circuit_witness :
    psB[1]?.bind (·.preRunResult) = some (.base 7) ∧
      (serverRun 10 psB .ctxDone).result = some (GoErr.preRunWrap (.base 7)) ∧
      (serverRun 10 psB .ctxDone).preRunCalls = [0, 1] ∧
      (serverRun 10 psB .ctxDone).shutdownCalls = [] := by
  have h := prerun_short_circuit 10 psB .ctxDone 1 (.base 7) (by decide)
    (fun j hj => by interval_cases j <;> decide)
  exact ⟨by decide, h.1, by rw [h.2.1]; decide, h.2.2.2.2.1⟩

theorem preRunPhase_eq_none (ps : List ProcBehavior)
    (h : ∀ p ∈ ps, p.preRunResult = none) : preRunPhase ps = none := by
  induction ps with
  | nil => rfl
  | cons p rest ih =>
    have hp : p.preRunResult = none := h p (List.mem_cons_self p rest)
    simp only [preRunPhase, hp]
    exact ih fun q hq => h q (List.mem_cons_of_mem p hq)

/-- C4: if termination happens through the input context with every
process's `Run` and `Shutdown` returning nil (and startup succeeded),
`Server.Run` returns nil — clean cancellation is not an error. -/
theorem clean_cancellation_returns_nil (ct : Nat) (ps : List ProcBehavior) (tr : Trigger)
    (hv : tr.valid ps = true)
    (hpre : ∀ p ∈ ps, p.preRunResult = none)
    (hrun : ∀ p ∈ ps, p.runResult = none)
    (hsd : ∀ p ∈ ps, p.shutdownResult = none) :
    (serverRun ct ps tr).result = none := by
  have hpre' := preRunPhase_eq_none ps hpre
  rw [serverRun_of_preRun_ok ct ps tr hpre']
  have hsel : selectErrorOf ps tr = none := by
    cases tr with
    | ctxDone => rfl
    | procError i =>
      cases hg : ps[i]? with
      | none => simp [Trigger.valid, hg] at hv
      | some p =>
        have hmem : p ∈ ps := by
          obtain ⟨hlt, hget⟩ := List.getElem?_eq_some.mp hg
          exact hget ▸ List.getElem_mem hlt
        have hpnil : p.runResult = none := hrun p hmem
        simp [Trigger.valid, hg, hpnil] at hv
  show (shutdownPhase ps (shutdownCtxOf ct) ps.length (selectErrorOf ps tr)).2 = none
  rw [hsel, shutdownPhase_snd_none, List.take_length]
  have hnil : ps.reverse.filterMap (·.shutdownResult) = [] := by
    rw [List.filterMap_eq_nil_iff]
    intro p hp
    exact hsd p (List.mem_reverse.mp hp)
  rw [hnil]
  rfl

/-- Two fully well-behaved processes. -/
def psC : List ProcBehavior := [⟨none, none, none⟩, ⟨none, none, none⟩]

theorem clean_cancellation_returns_nil_witness :
    Trigger.ctxDone.valid psC = true ∧ (serverRun 10 psC .ctxDone).result = none :=
  ⟨by decide,
    clean_cancellation_returns_nil 10 psC .ctxDone (by decide)
      (fun p hp => by simp [psC] at hp; simp [hp])
      (fun p hp => by simp [psC] at hp; simp [hp])
      (fun p hp => by simp [psC] at hp; simp [hp])⟩

theorem serverRun_shutdownCalls (ct : Nat) (ps : List ProcBehavior) (tr : Trigger)
    (hpre : preRunPhase ps = none) :
    (serverRun ct ps tr).shutdownCalls =
      (List.range ps.length).reverse.map (fun i => (i, shutdownCtxOf ct)) := by
  rw [serverRun_of_preRun_ok ct ps tr hpre]
  exact shutdownPhase_fst ps (shutdownCtxOf ct) ps.length (selectErrorOf ps tr)

/-- C5: the context handed to every `Shutdown` call is the fresh
`context.WithTimeout(context.Background(), closeTimeout)` context — never
the input context of `Run` — and it is live even when the input context is
already cancelled or expired. -/
theorem fresh_shutdown_context (ct : Nat) (ps : List ProcBehavior) (tr : Trigger)
    (hv : tr.valid ps = true) (hpre : preRunPhase ps = none) (hct : 0 < ct) :
    ∀ c ∈ (serverRun ct ps tr).shutdownCalls,
      c.2 = GoCtx.withTimeout GoCtx.background ct ∧
      c.2 ≠ GoCtx.input ∧
      ∀ inputCancelled : Bool, c.2.alive inputCancelled = true := by
  intro c hc
  rw [serverRun_shutdownCalls ct ps tr hpre] at hc
  obtain ⟨i, _, rfl⟩ := List.mem_map.mp hc
  refine ⟨rfl, by simp [shutdownCtxOf], ?_⟩
  intro b
  simp [shutdownCtxOf, GoCtx.alive, hct]

theorem fresh_shutdown_context_witness :
    Trigger.ctxDone.valid psC = true ∧ preRunPhase psC = none ∧ 0 < 10 ∧
      ∀ c ∈ (serverRun 10 psC .ctxDone).shutdownCalls,
        c.2 = GoCtx.withTimeout GoCtx.background 10 :=
  ⟨by decide, by decide, by decide,
    fun c hc =>
      (fresh_shutdown_context 10 psC .ctxDone (by decide) (by decide) (by decide) c hc).1⟩

/-- C6: the error channel's capacity equals the number of processes, the
total number of values ever sent on it never exceeds that capacity (so no
send can block), and every sent value is the index-wrapped run error of
the process at that index — processes whose `Run` returns nil send
nothing. -/
theorem errch_never_blocks (ct : Nat) (ps : List ProcBehavior) (tr : Trigger)
    (hv : tr.valid ps = true) (hpre : preRunPhase ps = none) :
    (serverRun ct ps tr).errChCap = ps.length ∧
    (serverRun ct ps tr).sends.length ≤ (serverRun ct ps tr).errChCap ∧
    (∀ k, k < (serverRun ct ps tr).sends.length → k < (serverRun ct ps tr).errChCap) ∧
    ∀ v ∈ (serverRun ct ps tr).sends, ∃ i e, v = GoErr.processWrap i e ∧
      ps[i]?.bind (·.runResult) = some e := by
  rw [serverRun_of_preRun_ok ct ps tr hpre]
  have hlen : (runSends ps).length ≤ ps.length := by
    calc (runSends ps).length ≤ ps.enum.length := List.length_filterMap_le _ _
    _ = ps.length := List.enum_length
  refine ⟨rfl, hlen, fun k hk => lt_of_lt_of_le hk hlen, ?_⟩
  intro v hv'
  obtain ⟨ip, hip, hf⟩ := List.mem_filterMap.mp hv'
  obtain ⟨e, he, hve⟩ := Option.map_eq_some'.mp hf
  refine ⟨ip.1, e, hve.symm, ?_⟩
  have hget : ps[ip.1]? = some ip.2 := List.mem_enum_iff_getElem?.mp hip
  rw [hget, Option.some_bind, he]

theorem errch_never_blocks_witness :
    (Trigger.procError 0).valid psA = true ∧ preRunPhase psA = none ∧
      (serverRun 10 psA (.procError 0)).errChCap = psA.length ∧
      (serverRun 10 psA (.procError 0)).sends.length ≤
        (serverRun 10 psA (.procError 0)).errChCap :=
  ⟨by decide, by decide,
    (errch_never_blocks 10 psA (.procError 0) (by decide) (by decide)).1,
    (errch_never_blocks 10 psA (.procError 0) (by decide) (by decide)).2.1⟩

/-! ## Process-list assembly and the `Server` struct (`server/server.go`,
`server/option.go`, legacy `server.go`, `option.go`) -/

/-- The kinds of processes that can appear in the coordinator's list:
caller-supplied custom processes and the system-provided ones. -/
inductive ProcKind where
  | custom (id : Nat)
  | telemetry
  | grpcSrv
  | gatewaySrv
  | metricsSrv
  | pprofSrv
deriving DecidableEq, Repr

/-- The four system processes built in `Run`:
`systemProcesses := []Process{grpcServer, gatewayServer, metricsServer, pprofServer}`. -/
def systemProcesses : List ProcKind :=
  [ProcKind.grpcSrv, ProcKind.gatewaySrv, ProcKind.metricsSrv, ProcKind.pprofSrv]

/-- How `server/server.go`'s `Run` assembles `s.processes`: starting from
the caller-supplied list, `s.addProcesses(telemetryService)` when telemetry
is enabled, then `s.addProcesses(systemProcesses...)`; `addProcesses`
appends. -/
def assembleProcesses (custom : List ProcKind) (telemetryEnabled : Bool) :
    List ProcKind :=
  let ps1 := if telemetryEnabled then custom ++ [ProcKind.telemetry] else custom
  ps1 ++ systemProcesses

/-- How the legacy root-package `server.go` `Run` assembles its local list:
`processes := []Process{grpcServer, gatewayServer, metricsServer, pprofServer}`
then `processes = append(processes, s.processes...)`. -/
def assembleProcessesLegacy (custom : List ProcKind) : List ProcKind :=
  systemProcesses ++ custom

/-- The C7 claim's wording: system processes (gRPC, gateway, metrics,
pprof, then telemetry when enabled) prepended before the caller-supplied
custom processes. -/
def claimPrependedAssembly (custom : List ProcKind) (telemetryEnabled : Bool) :
    List ProcKind :=
  (systemProcesses ++ (if telemetryEnabled then [ProcKind.telemetry] else [])) ++ custom

/-- C7 counterexample: with one custom process and telemetry disabled, the
`server` package's `Run` places the custom process first, not after the
system processes. -/
theorem assembly_not_prepended :
    assembleProcesses [ProcKind.custom 0] false ≠
      claimPrependedAssembly [ProcKind.custom 0] false := by
  decide

/-- C7 (amended): in the `server` package the system processes are
appended after the caller-supplied processes — telemetry (when enabled)
first, then gRPC, gateway, metrics, pprof — so the custom processes form
the front of the list; in the legacy root package the four system
processes are prepended before the caller-supplied processes. -/
theorem assembly_order (custom : List ProcKind) (telemetryEnabled : Bool) :
    (assembleProcesses custom telemetryEnabled).take custom.length = custom ∧
    (assembleProcesses custom telemetryEnabled).drop custom.length =
      (if telemetryEnabled then [ProcKind.telemetry] else []) ++ systemProcesses ∧
    assembleProcessesLegacy custom = systemProcesses ++ custom := by
  cases telemetryEnabled <;>
    simp [assembleProcesses, assembleProcessesLegacy, List.take_append, List.drop_append]

/-- The configuration the `server` package's `Server` carries
(`config.Config`, the fields `Run` reads). -/
structure ConfigS where
  logLevel : String
  closeTimeout : Nat
  grpcAddress : String
  httpAddress : String
  metricsAddress : String
  pprofAddress : String
  reflectionEnabled : Bool
  healthCheckEnabled : Bool
  swaggerEnabled : Bool
  swaggerDir : String
  swaggerBasePath : String
deriving DecidableEq, Repr

/-- The `server` package's `Server` struct: its configuration, process
list, logger (`none` = nil), and the option-filled slice/scalar fields. -/
structure ServerState where
  cfg : ConfigS
  processes : List ProcKind
  logger : Option Nat
  services : List Nat
  grpcServerOptions : List Nat
  grpcUnaryServerInterceptors : List Nat
  grpcStreamServerInterceptors : List Nat
  gwServerMuxOptions : List Nat
  gwCORSEnabled : Bool
  gwCORSOptions : Nat
  telemetryEnabled : Bool
deriving DecidableEq, Repr

/-- `WithProcesses` (`server/option.go`): appends to `s.processes`. -/
def withProcesses (ps : List ProcKind) (s : ServerState) : ServerState :=
  { s with processes := s.processes ++ ps }

/-- `WithGRPCUnaryInterceptors` (`server/option.go`): assigns
`s.grpcUnaryServerInterceptors = interceptors` (replaces, does not append). -/
def withGRPCUnaryInterceptors (icpts : List Nat) (s : ServerState) : ServerState :=
  { s with grpcUnaryServerInterceptors := icpts }

/-- `WithGRPCStreamInterceptors` (`server/option.go`): assigns
`s.grpcStreamServerInterceptors = interceptors`. -/
def withGRPCStreamInterceptors (icpts : List Nat) (s : ServerState) : ServerState :=
  { s with grpcStreamServerInterceptors := icpts }

/-- `WithGRPCAddress` (`server/option.go`): sets `s.cfg.GRPCAddress`. -/
def withGRPCAddress (a : String) (s : ServerState) : ServerState :=
  { s with cfg := { s.cfg with grpcAddress := a } }

/-- `WithCloseTimeout` (`server/option.go`): sets `s.cfg.CloseTimeout`. -/
def withCloseTimeout (t : Nat) (s : ServerState) : ServerState :=
  { s with cfg := { s.cfg with closeTimeout := t } }

/-- The legacy root-package `Server` fields touched by its options. -/
structure LegacyServerState where
  unaryInterceptors : List Nat
  processes : List ProcKind
deriving DecidableEq, Repr

/-- Legacy `WithUnaryInterceptors` (`option.go` lines 101-106): assigns
`s.unaryInterceptors = interceptors` (replaces). -/
def legacyWithUnaryInterceptors (icpts : List Nat) (s : LegacyServerState) :
    LegacyServerState :=
  { s with unaryInterceptors := icpts }

/-- Legacy `WithProcesses` (`option.go`): appends to `s.processes`. -/
def legacyWithProcesses (ps : List ProcKind) (s : LegacyServerState) :
    LegacyServerState :=
  { s with processes := s.processes ++ ps }

/-- A zero-valued server, as built by `NewServer` before options run. -/
def emptyServer : ServerState :=
  { cfg := { logLevel := "info", closeTimeout := 10, grpcAddress := ":9090"
             httpAddress := ":8080", metricsAddress := ":9091"
             pprofAddress := ":6060", reflectionEnabled := false
             healthCheckEnabled := false, swaggerEnabled := false
             swaggerDir := "", swaggerBasePath := "" }
    processes := []
    logger := none
    services := []
    grpcServerOptions := []
    grpcUnaryServerInterceptors := []
    grpcStreamServerInterceptors := []
    gwServerMuxOptions := []
    gwCORSEnabled := false
    gwCORSOptions := 0
    telemetryEnabled := false }

/-- C8 counterexample: applying two interceptor-list options in order does
NOT leave the field equal to the concatenation of the two lists — the
second replaces the first. -/
theorem interceptor_options_do_not_accumulate :
    (withGRPCUnaryInterceptors [2] (withGRPCUnaryInterceptors [1]
        emptyServer)).grpcUnaryServerInterceptors ≠ [1, 2] := by
  decide

/-- C8 (amended): for scalar fields the last option wins; process-list
options accumulate by concatenation; interceptor-list options (both in the
`server` package and the legacy root package) replace the whole list, so
for them too the last option wins rather than accumulating. -/
theorem option_composition (s : ServerState) (t : LegacyServerState)
    (a b : String) (t1 t2 : Nat) (ps1 ps2 : List ProcKind) (is1 is2 : List Nat) :
    (withGRPCAddress b (withGRPCAddress a s)).cfg.grpcAddress = b ∧
    (withCloseTimeout t2 (withCloseTimeout t1 s)).cfg.closeTimeout = t2 ∧
    (withProcesses ps2 (withProcesses ps1 s)).processes =
      s.processes ++ (ps1 ++ ps2) ∧
    (withGRPCUnaryInterceptors is2 (withGRPCUnaryInterceptors is1
      s)).grpcUnaryServerInterceptors = is2 ∧
    (withGRPCStreamInterceptors is2 (withGRPCStreamInterceptors is1
      s)).grpcStreamServerInterceptors = is2 ∧
    (legacyWithProcesses ps2 (legacyWithProcesses ps1 t)).processes =
      t.processes ++ (ps1 ++ ps2) ∧
    (legacyWithUnaryInterceptors is2 (legacyWithUnaryInterceptors is1
      t)).unaryInterceptors = is2 := by
  refine ⟨rfl, rfl, ?_, rfl, rfl, ?_, rfl⟩ <;>
    simp [withProcesses, legacyWithProcesses]

/-! ## The metrics process (`internal/metrics`, source in package `metrics`) -/

/-- The id of the `AppVersion` gauge collector. -/
def appVersionId : Nat := 0

/-- `prometheus.MustRegister` against the default registry, modelled as
the list of registered collector ids: registering an already-registered
collector returns `AlreadyRegisteredError`, on which `MustRegister`
panics — modelled as `none`. -/
def mustRegister (reg : List Nat) (c : Nat) : Option (List Nat) :=
  if c ∈ reg then none else some (reg ++ [c])

/-- `RegisterAppMetrics`: `prometheus.MustRegister(AppVersion)`. -/
def registerAppMetrics (reg : List Nat) : Option (List Nat) :=
  mustRegister reg appVersionId

/-- `metrics.Server.PreRun`: calls `RegisterAppMetrics()` and returns nil;
a panic escaping the call is modelled as `none`. -/
def metricsPreRun (reg : List Nat) : Option (List Nat) :=
  registerAppMetrics reg

/-- C9 counterexample: the metrics server's PreRun succeeds once on a
fresh registry but PANICS (duplicate registration) when called a second
time in succession — it is not idempotent. -/
theorem metrics_prerun_not_idempotent :
    (metricsPreRun []).isSome = true ∧ (metricsPreRun []).bind metricsPreRun = none := by
  decide

/-- C9 (amended): the metrics server's PreRun is not idempotent — any
second call on the registry state left by a successful first call panics
with a duplicate Prometheus registration; within one `Run` the coordinator
calls each process's PreRun at most once, so the panic is not reached. -/
theorem metrics_prerun_second_call_panics (reg reg' : List Nat)
    (h : metricsPreRun reg = some reg') :
    metricsPreRun reg' = none := by
  simp only [metricsPreRun, registerAppMetrics, mustRegister] at h ⊢
  by_cases hc : appVersionId ∈ reg
  · simp [hc] at h
  · simp only [hc, if_false, Option.some.injEq] at h
    subst h
    simp

theorem metrics_prerun_second_call_panics_witness :
    metricsPreRun [] = some [appVersionId] ∧
      metricsPreRun [appVersionId] = none :=
  ⟨by decide, metrics_prerun_second_call_panics [] [appVersionId] (by decide)⟩

/-! ## What `Server.Run` mutates on the `Server` (frame effect) -/

/-- The logger installed when `s.logger == nil`: `slog.Default()`. -/
def defaultLogger : Nat := 0

/-- The mutations `server/server.go`'s `Run` performs on the receiver:
install the default logger when nil, append the telemetry process and
interceptors when telemetry is enabled, then append the four system
processes. `telUnary`/`telStream` are the interceptor lists returned by
the telemetry service. -/
def runServerUpdate (telUnary telStream : List Nat) (s : ServerState) :
    ServerState :=
  let s1 := if s.logger = none then { s with logger := some defaultLogger } else s
  let s2 :=
    if s1.telemetryEnabled then
      { s1 with
        processes := s1.processes ++ [ProcKind.telemetry]
        grpcUnaryServerInterceptors := s1.grpcUnaryServerInterceptors ++ telUnary
        grpcStreamServerInterceptors := s1.grpcStreamServerInterceptors ++ telStream }
    else s1
  { s2 with processes := s2.processes ++ systemProcesses }

/-- C10: `Run` leaves the receiver's processes field equal to the
caller-supplied list extended by the telemetry process (when enabled) and
the four system processes; the logger is defaulted only when nil; the
interceptor lists gain exactly the telemetry interceptors (when enabled);
every other field is unchanged; and a second `Run` would append the system
processes again on top of the first `Run`'s. -/
theorem run_mutates_only_processes_interceptors_logger
    (telUnary telStream : List Nat) (s : ServerState) :
    (runServerUpdate telUnary telStream s).processes =
      s.processes ++ (if s.telemetryEnabled then [ProcKind.telemetry] else []) ++
        systemProcesses ∧
    (runServerUpdate telUnary telStream s).logger =
      (if s.logger = none then some defaultLogger else s.logger) ∧
    (runServerUpdate telUnary telStream s).grpcUnaryServerInterceptors =
      s.grpcUnaryServerInterceptors ++
        (if s.telemetryEnabled then telUnary else []) ∧
    (runServerUpdate telUnary telStream s).grpcStreamServerInterceptors =
      s.grpcStreamServerInterceptors ++
        (if s.telemetryEnabled then telStream else []) ∧
    (runServerUpdate telUnary telStream s).cfg = s.cfg ∧
    (runServerUpdate telUnary telStream s).services = s.services ∧
    (runServerUpdate telUnary telStream s).grpcServerOptions = s.grpcServerOptions ∧
    (runServerUpdate telUnary telStream s).gwServerMuxOptions = s.gwServerMuxOptions ∧
    (runServerUpdate telUnary telStream s).gwCORSEnabled = s.gwCORSEnabled ∧
    (runServerUpdate telUnary telStream s).gwCORSOptions = s.gwCORSOptions ∧
    (runServerUpdate telUnary telStream s).telemetryEnabled = s.telemetryEnabled ∧
    (runServerUpdate telUnary telStream
        (runServerUpdate telUnary telStream s)).processes =
      s.processes ++ (if s.telemetryEnabled then [ProcKind.telemetry] else []) ++
        systemProcesses ++
        (if s.telemetryEnabled then [ProcKind.telemetry] else []) ++
        systemProcesses := by
  cases hl : s.logger <;> cases ht : s.telemetryEnabled <;>
    simp [runServerUpdate, hl, ht]

end Netgex
